import Mathlib

/-!
Verification of the search/await engine of `fprime_gds.common.testing_fw.api`
(`IntegrationTestAPI`, file `Gds/src/fprime_gds/common/testing_fw/api.py`).

The three search algorithms (`find_history_item`, `find_history_sequence`,
`find_history_count`) and the facade entry points (`await_telemetry`,
`await_event`, `get_latest_fsw_time`) are embedded as pure Lean functions.
The embedding choices, shared by all definitions below:

* Records are an arbitrary type `α`; a predicate is `α → Bool` (the predicate
  contract of the spec: a pure, total boolean test over one record).
* A history is its ordered list of records.  `History.size` and
  `History.retrieve` follow the History interface contract (the history
  implementation itself is an external collaborator of this file's source):
  `retrieve from` returns exactly the records at positions ≥ `from`, in order.
* The polling loop (`while True: new_items = history.retrieve_new(); ...`
  guarded by `signal.alarm(timeout)`) is modelled by passing the list of
  batches that successive `retrieve_new()` calls deliver before the alarm
  fires.  Exhausting that list models the `TimeoutException` being raised:
  the alarm has then fired, so it is no longer pending.
* Each search returns, together with its result, an effect record: how many
  `retrieve_new()` polls were made, the sequence of `signal.alarm(n)` calls
  issued (`n = 0` is cancellation), and whether an armed alarm is still
  pending when the function returns.
-/

namespace GdsTestApi

/-- Modelled from the spec: a History is an append-only ordered log of
records (spec section 4.2); the backing implementation
(`fprime_gds.common.history.test.TestHistory`) is an external collaborator
of `api.py`.  A history value is its ordered record list. -/
structure History (α : Type) where
  items : List α
deriving DecidableEq

/-- Modelled from the spec: `size()` returns the current record count. -/
def History.size {α : Type} (h : History α) : Nat := h.items.length

/-- Modelled from the spec: `retrieve(from)` is the snapshot of all records
at or after index `from`, in order. -/
def History.retrieve {α : Type} (h : History α) (start : Nat) : List α :=
  h.items.drop start

/-- The start-cursor argument of the three searches: the `"NOW"` sentinel,
a literal index, or Python `None` (search from the start of the history). -/
inductive Start where
  | now
  | idx (n : Nat)
  | fromStart
deriving DecidableEq

/-- `if start == self.NOW: start = history.size()` (api.py lines 783-784,
823-824, 885-886), followed by `history.retrieve(start)` where a `None`
start retrieves from the beginning. -/
def resolveStart {α : Type} (start : Start) (h : History α) : Nat :=
  match start with
  | .now => h.size
  | .idx n => n
  | .fromStart => 0

/-- Observable behaviour of one `find_history_item` call: the returned
record (or `none`), the number of `retrieve_new()` polls, the
`signal.alarm` calls made, and whether an armed alarm is still pending at
return. -/
structure ItemExec (α : Type) where
  result : Option α
  polled : Nat
  armSeq : List Nat
  pending : Bool
deriving DecidableEq

/-- The polling loop body of `find_history_item` (api.py lines 795-800):
each batch is one `retrieve_new()` result, scanned in order for the first
record satisfying the predicate.  Returns the match (if any) and the number
of `retrieve_new()` calls made. -/
def itemPoll {α : Type} (search_pred : α → Bool) : List (List α) → Option α × Nat
  | [] => (none, 0)
  | b :: bs =>
    match b.find? search_pred with
    | some x => (some x, 1)
    | none =>
      let r := itemPoll search_pred bs
      (r.1, r.2 + 1)

/-- `IntegrationTestAPI.find_history_item` (api.py lines 769-804).
The poll-loop success path (line 799) returns without `signal.alarm(0)`,
so the armed alarm is still pending there; the timeout path returns after
the alarm has fired, so nothing is pending. -/
def find_history_item {α : Type} (search_pred : α → Bool) (history : History α)
    (start : Start) (timeout : Nat) (batches : List (List α)) : ItemExec α :=
  let s := resolveStart start history
  let current := history.retrieve s
  match current.find? search_pred with
  | some x => ⟨some x, 0, [], false⟩
  | none =>
    if timeout ≠ 0 then
      let r := itemPoll search_pred batches
      match r.1 with
      | some x => ⟨some x, r.2, [timeout], true⟩
      | none => ⟨none, r.2, [timeout], false⟩
    else ⟨none, 0, [], false⟩

/-- Observable behaviour of one `find_history_sequence` call.  `examined`
counts how many candidate records were tested against a predicate (one test
per loop iteration; the source tests each record only against
`seq_preds[0]`). -/
structure SeqExec (α : Type) where
  result : List α
  examined : Nat
  polled : Nat
  armSeq : List Nat
  pending : Bool
deriving DecidableEq

/-- The scanning loop of `find_history_sequence` (api.py lines 833-838 and
846-852): records are consumed in order; a record is tested only against
the head of the remaining predicate list; on a match it is appended and the
predicate popped; when the predicate list empties the function returns, so
no further record is examined.  Returns the accumulated sequence, the
remaining predicates, and the number of records examined. -/
def seqLoop {α : Type} : List (α → Bool) → List α → List α →
    List α × List (α → Bool) × Nat
  | [], acc, _ => (acc, [], 0)
  | preds, acc, [] => (acc, preds, 0)
  | p :: ps, acc, x :: xs =>
    if p x then
      let r := seqLoop ps (acc ++ [x]) xs
      (r.1, r.2.1, r.2.2 + 1)
    else
      let r := seqLoop (p :: ps) acc xs
      (r.1, r.2.1, r.2.2 + 1)

/-- The polling loop of `find_history_sequence` (api.py lines 840-853):
each batch is one `retrieve_new()` result, scanned with the same
pointer/accumulator state; on completion `signal.alarm(0)` is called and
the sequence returned.  Returns the sequence, records examined, batches
consumed, and whether the sequence completed. -/
def seqPollLoop {α : Type} (preds : List (α → Bool)) (acc : List α) :
    List (List α) → List α × Nat × Nat × Bool
  | [] => (acc, 0, 0, false)
  | b :: bs =>
    let r := seqLoop preds acc b
    if r.2.1.isEmpty then (r.1, r.2.2, 1, true)
    else
      let q := seqPollLoop r.2.1 r.1 bs
      (q.1, r.2.2 + q.2.1, q.2.2.1 + 1, q.2.2.2)

/-- `IntegrationTestAPI.find_history_sequence` (api.py lines 806-857). -/
def find_history_sequence {α : Type} (seq_preds : List (α → Bool))
    (h : History α) (start : Start) (timeout : Nat)
    (batches : List (List α)) : SeqExec α :=
  let s := resolveStart start h
  let current := h.retrieve s
  if seq_preds.isEmpty then ⟨[], 0, 0, [], false⟩
  else
    let r := seqLoop seq_preds [] current
    if r.2.1.isEmpty then ⟨r.1, r.2.2, 0, [], false⟩
    else if timeout ≠ 0 then
      let q := seqPollLoop r.2.1 r.1 batches
      ⟨q.1, r.2.2 + q.2.1, q.2.2.1, timeout :: (if q.2.2.2 then [0] else []), false⟩
    else ⟨r.1, r.2.2, 0, [], false⟩

/-- The `count` argument of `find_history_count`: a predicate over the
accumulated length, an integer (exact count), or any other Python value. -/
inductive CountArg where
  | pred (p : Nat → Bool)
  | int (n : Nat)
  | malformed

/-- api.py lines 878-883: a predicate is used as is, an integer `n` becomes
`predicates.equal_to(n)`, anything else is a `TypeError`. -/
def toCountPred : CountArg → Option (Nat → Bool)
  | .pred p => some p
  | .int n => some (fun len => len == n)
  | .malformed => none

/-- The `TypeError` message raised at api.py line 883. -/
def countErrMsg : String := "Find history must receive a predicate or an integer"

/-- Observable behaviour of one `find_history_count` call.  `sizeCalls` and
`retrieveCalls` count the `history.size()` and `history.retrieve(...)`
calls made, to witness that a malformed `count` is rejected before the
history is read. -/
structure CountExec (α : Type) where
  result : Except String (List α)
  sizeCalls : Nat
  retrieveCalls : Nat
  polled : Nat
  armSeq : List Nat
  pending : Bool

/-- The inner loop over one `retrieve_new()` batch in `find_history_count`
(api.py lines 906-912): each matching record is appended and the count
predicate re-checked immediately; on satisfaction the scan stops.  Returns
the accumulator and whether the count predicate became satisfied. -/
def countScanBatch {α : Type} (search_pred : α → Bool) (count_pred : Nat → Bool)
    (acc : List α) : List α → List α × Bool
  | [] => (acc, false)
  | x :: xs =>
    if search_pred x then
      if count_pred (acc ++ [x]).length then (acc ++ [x], true)
      else countScanBatch search_pred count_pred (acc ++ [x]) xs
    else countScanBatch search_pred count_pred acc xs

/-- The polling loop of `find_history_count` (api.py lines 901-913): on
satisfaction `signal.alarm(0)` is called and the objects returned; later
batches are never retrieved.  Returns the objects, batches consumed, and
whether the count predicate became satisfied. -/
def countPoll {α : Type} (search_pred : α → Bool) (count_pred : Nat → Bool)
    (acc : List α) : List (List α) → List α × Nat × Bool
  | [] => (acc, 0, false)
  | b :: bs =>
    let r := countScanBatch search_pred count_pred acc b
    if r.2 then (r.1, 1, true)
    else
      let q := countPoll search_pred count_pred r.1 bs
      (q.1, q.2.1 + 1, q.2.2)

/-- The body of `find_history_count` after the `count` argument has been
turned into a predicate (api.py lines 888-917), operating on the snapshot
`items = history.retrieve(start)`: a `None` search predicate counts every
record (`objects = history.retrieve(start)` directly, with
`predicates.always_true()` used for polling); otherwise the matching
records are accumulated.  Returns `(objects, polls, alarm calls, alarm
pending)`. -/
def countRun {α : Type} (count_pred : Nat → Bool) (search_pred : Option (α → Bool))
    (items : List α) (timeout : Nat) (batches : List (List α)) :
    List α × Nat × List Nat × Bool :=
  let sp : α → Bool := match search_pred with | none => fun _ => true | some p => p
  let objects : List α := match search_pred with | none => items | some p => items.filter p
  if count_pred objects.length then (objects, 0, [], false)
  else if timeout ≠ 0 then
    let q := countPoll sp count_pred objects batches
    (q.1, q.2.1, timeout :: (if q.2.2 then [0] else []), false)
  else (objects, 0, [], false)

/-- `history.size()` is called exactly when the start cursor is the `"NOW"`
sentinel (api.py lines 885-886). -/
def startSizeCalls : Start → Nat
  | .now => 1
  | _ => 0

/-- `IntegrationTestAPI.find_history_count` (api.py lines 859-917).  The
`count` type check (lines 878-883) precedes every access to the history. -/
def find_history_count {α : Type} (count : CountArg) (h : History α)
    (search_pred : Option (α → Bool)) (start : Start) (timeout : Nat)
    (batches : List (List α)) : CountExec α :=
  match toCountPred count with
  | none => ⟨Except.error countErrMsg, 0, 0, 0, [], false⟩
  | some count_pred =>
    let r := countRun count_pred search_pred (h.retrieve (resolveStart start h))
      timeout batches
    ⟨Except.ok r.1, startSizeCalls start, 1, r.2.1, r.2.2.1, r.2.2.2⟩

/-!
Refinement specification for the sequence search, written from the spec
text rather than from the source, to be compared with
`find_history_sequence`.
-/

/-- Written from the spec (section 4.3, sequence search): a strict,
order-preserving, single-pass greedy scan.  Each record is tested only
against the predicate currently pointed to; a non-matching record is
skipped and never matched against later predicates; a matching record is
appended and the pointer advances; once the pointer passes the last
predicate the accumulator is returned and no further record is consumed. -/
def greedySeq {α : Type} : List (α → Bool) → List α → List α
  | [], _ => []
  | _, [] => []
  | p :: ps, x :: xs => if p x then x :: greedySeq ps xs else greedySeq (p :: ps) xs

/-- The predicates left unmatched by the greedy scan of `greedySeq`. -/
def greedyRem {α : Type} : List (α → Bool) → List α → List (α → Bool)
  | [], _ => []
  | preds, [] => preds
  | p :: ps, x :: xs => if p x then greedyRem ps xs else greedyRem (p :: ps) xs

/-!
The facade entry points `await_telemetry` (api.py lines 358-381) and
`await_event` (lines 581-604) hand a predicate and a history to
`find_history_item`, whose parameters are `(search_pred, history, start,
timeout)` (line 769).  Because Python binds these positionally with no type
check, the model below keeps the two objects in a common dynamic type and
raises the errors Python would raise when a method is called on the wrong
object.  Predicate objects expose only `__call__` and history objects only
`size`/`retrieve`/`retrieve_new` (the predicate and history contracts of
spec sections 4.1 and 4.2; both implementations are external collaborators
of api.py).
-/

/-- A Python object appearing at the `find_history_item` call boundary:
either a predicate or a history. -/
inductive PyVal (α : Type) where
  | pred (p : α → Bool)
  | hist (h : History α)

/-- `obj.size()`: defined on histories, an `AttributeError` on predicates. -/
def PyVal.size {α : Type} : PyVal α → Except String Nat
  | .hist h => Except.ok h.size
  | .pred _ => Except.error ("AttributeError: predicate object has no attribute size")

/-- `obj.retrieve(start)` with `start` either an index or `None`. -/
def PyVal.retrieveFrom {α : Type} : PyVal α → Option Nat → Except String (List α)
  | .hist h, s => Except.ok (h.retrieve (s.getD 0))
  | .pred _, _ => Except.error ("AttributeError: predicate object has no attribute retrieve")

/-- `obj.retrieve_new()`, delivering the next poll batch. -/
def PyVal.retrieveNew {α : Type} : PyVal α → List α → Except String (List α)
  | .hist _, batch => Except.ok batch
  | .pred _, _ => Except.error ("AttributeError: predicate object has no attribute retrieve_new")

/-- `obj(item)`: calling a predicate evaluates it; calling a history is a
`TypeError`. -/
def PyVal.callOn {α : Type} : PyVal α → α → Except String Bool
  | .pred p, x => Except.ok (p x)
  | .hist _, _ => Except.error ("TypeError: history object is not callable")

/-- `for item in current: if search_pred(item): return item`
(api.py lines 787-789), with a dynamically typed `search_pred`. -/
def findFirstDyn {α : Type} (search_pred : PyVal α) : List α → Except String (Option α)
  | [] => Except.ok none
  | x :: xs => do
    if ← search_pred.callOn x then pure (some x) else findFirstDyn search_pred xs

/-- The polling loop of `find_history_item` (api.py lines 795-800) with
dynamically typed arguments. -/
def pollDyn {α : Type} (search_pred history : PyVal α) :
    List (List α) → Except String (Option α)
  | [] => Except.ok none
  | b :: bs => do
    let new_items ← history.retrieveNew b
    match ← findFirstDyn search_pred new_items with
    | some x => pure (some x)
    | none => pollDyn search_pred history bs

/-- `IntegrationTestAPI.find_history_item` (api.py lines 769-804) at the
dynamically typed call boundary: both objects arrive untyped and every
method call may raise. -/
def find_history_item_dyn {α : Type} (search_pred history : PyVal α)
    (start : Start) (timeout : Nat) (batches : List (List α)) :
    Except String (Option α) := do
  let s : Option Nat ←
    match start with
    | .now => do pure (some (← history.size))
    | .idx n => pure (some n)
    | .fromStart => pure none
  let current ← history.retrieveFrom s
  match ← findFirstDyn search_pred current with
  | some x => pure (some x)
  | none =>
    if timeout ≠ 0 then pollDyn search_pred history batches
    else pure none

/-- `IntegrationTestAPI.await_telemetry` (api.py lines 358-381): the built
telemetry predicate `t_pred` and the selected history (the argument, or the
test-owned telemetry history when `None`) are passed to
`find_history_item` in the order written at line 381:
`self.find_history_item(history, t_pred, start, timeout)`. -/
def await_telemetry {α : Type} (t_pred : α → Bool) (history : Option (History α))
    (telemetry_history : History α) (start : Start) (timeout : Nat)
    (batches : List (List α)) : Except String (Option α) :=
  let hist := match history with | none => telemetry_history | some h => h
  find_history_item_dyn (PyVal.hist hist) (PyVal.pred t_pred) start timeout batches

/-- `IntegrationTestAPI.await_event` (api.py lines 581-604): the built event
predicate `e_pred` and the selected history (the argument, or the test-owned
event history when `None`) are passed to `find_history_item` in the order
written at line 604: `self.find_history_item(history, e_pred, start,
timeout)`. -/
def await_event {α : Type} (e_pred : α → Bool) (history : Option (History α))
    (event_history : History α) (start : Start) (timeout : Nat)
    (batches : List (List α)) : Except String (Option α) :=
  let hist := match history with | none => event_history | some h => h
  find_history_item_dyn (PyVal.hist hist) (PyVal.pred e_pred) start timeout batches

/-!
`IntegrationTestAPI.get_latest_fsw_time` and the `latest_time` field.
Records of the aggregate histories are modelled by their
`get_time().useconds` value; a fresh `TimeType().useconds` is `0`
(`TimeType` is an external collaborator whose default timestamp is zero).
-/

/-- `IntegrationTestAPI.get_latest_fsw_time` (api.py lines 89-107), acting
on the current `latest_time` and the two aggregate histories: returns the
new `latest_time` (first component: the updated field, second: the value
returned to the caller). -/
def get_latest_fsw_time (latest_time : Nat) (events channels : List Nat) :
    Nat × Nat :=
  let e_time := (events.getLast?).getD 0
  let t_time := (channels.getLast?).getD 0
  let lt := max (max e_time t_time) latest_time
  (lt, lt)

/-- One operation of an `IntegrationTestAPI` instance, abstracted by its
effect on the `latest_time` field.  The only assignments to `latest_time`
in api.py are its initialisation (line 47) and the update in
`get_latest_fsw_time` (line 106); every other operation of the class leaves
the field unchanged and is modelled by `passive`. -/
inductive ApiOp where
  | getLatest (events channels : List Nat)
  | passive

/-- The effect of one operation on `latest_time`. -/
def ApiOp.step (op : ApiOp) (st : Nat) : Nat :=
  match op with
  | .getLatest ev ch => (get_latest_fsw_time st ev ch).1
  | .passive => st

/-- The values returned by the `get_latest_fsw_time` calls in a run of
operations, starting from `latest_time = st`. -/
def runReturns (st : Nat) : List ApiOp → List Nat
  | [] => []
  | op :: ops =>
    match op with
    | .getLatest ev ch =>
      (get_latest_fsw_time st ev ch).2 ::
        runReturns (get_latest_fsw_time st ev ch).1 ops
    | .passive => runReturns st ops

/-! Supporting lemmas. -/

lemma greedySeq_nil {α : Type} (preds : List (α → Bool)) :
    greedySeq preds ([] : List α) = [] := by
  cases preds <;> rfl

lemma greedyRem_nil {α : Type} (preds : List (α → Bool)) :
    greedyRem preds ([] : List α) = preds := by
  cases preds <;> rfl

lemma seqLoop_eq {α : Type} :
    ∀ (items : List α) (preds : List (α → Bool)) (acc : List α),
      (seqLoop preds acc items).1 = acc ++ greedySeq preds items ∧
      (seqLoop preds acc items).2.1 = greedyRem preds items := by
  intro items
  induction items with
  | nil =>
    intro preds acc
    cases preds <;> simp [seqLoop, greedySeq_nil, greedyRem_nil]
  | cons x xs ih =>
    intro preds acc
    cases preds with
    | nil => simp [seqLoop, greedySeq, greedyRem]
    | cons p ps =>
      by_cases hp : p x <;>
        simp [seqLoop, greedySeq, greedyRem, hp, (ih _ _).1, (ih _ _).2,
          List.append_assoc]

lemma greedy_append {α : Type} :
    ∀ (l1 l2 : List α) (preds : List (α → Bool)),
      greedySeq preds (l1 ++ l2) =
        greedySeq preds l1 ++ greedySeq (greedyRem preds l1) l2 ∧
      greedyRem preds (l1 ++ l2) = greedyRem (greedyRem preds l1) l2 := by
  intro l1
  induction l1 with
  | nil => intro l2 preds; simp [greedySeq_nil, greedyRem_nil]
  | cons x xs ih =>
    intro l2 preds
    cases preds with
    | nil => simp [greedySeq, greedyRem]
    | cons p ps =>
      by_cases hp : p x <;>
        simp [greedySeq, greedyRem, hp, (ih _ _).1, (ih _ _).2]

lemma greedySeq_nil_preds {α : Type} (items : List α) :
    greedySeq ([] : List (α → Bool)) items = [] := by
  cases items <;> rfl

lemma greedySeq_length_le {α : Type} :
    ∀ (items : List α) (preds : List (α → Bool)),
      (greedySeq preds items).length ≤ preds.length := by
  intro items
  induction items with
  | nil => intro preds; simp [greedySeq_nil]
  | cons x xs ih =>
    intro preds
    cases preds with
    | nil => simp [greedySeq]
    | cons p ps =>
      by_cases hp : p x
      · have h := ih ps
        simp [greedySeq, hp]
        omega
      · have h := ih (p :: ps)
        simp only [List.length_cons] at h
        simp [greedySeq, hp]
        omega

lemma seqPollLoop_result {α : Type} :
    ∀ (batches : List (List α)) (preds : List (α → Bool)) (acc : List α),
      (seqPollLoop preds acc batches).1 = acc ++ greedySeq preds batches.flatten := by
  intro batches
  induction batches with
  | nil => intro preds acc; simp [seqPollLoop, greedySeq_nil]
  | cons b bs ih =>
    intro preds acc
    have h1 := (seqLoop_eq b preds acc).1
    have h2 := (seqLoop_eq b preds acc).2
    have hflat : (b :: bs).flatten = b ++ bs.flatten := rfl
    cases hrem : (seqLoop preds acc b).2.1.isEmpty with
    | true =>
      have hnil : greedyRem preds b = [] := by
        rw [← h2]; exact List.isEmpty_iff.1 hrem
      rw [hflat, (greedy_append b bs.flatten preds).1, hnil, greedySeq_nil_preds,
        List.append_nil]
      simp [seqPollLoop, hrem, h1]
    | false =>
      rw [hflat, (greedy_append b bs.flatten preds).1, ← List.append_assoc, ← h1]
      rw [← h2, ← ih (seqLoop preds acc b).2.1 (seqLoop preds acc b).1]
      simp [seqPollLoop, hrem]

lemma find_history_sequence_zero_timeout {α : Type} (preds : List (α → Bool))
    (h : History α) (start : Start) (batches : List (List α)) :
    find_history_sequence preds h start 0 batches =
      if preds.isEmpty then ⟨[], 0, 0, [], false⟩
      else ⟨(seqLoop preds [] (h.retrieve (resolveStart start h))).1,
            (seqLoop preds [] (h.retrieve (resolveStart start h))).2.2,
            0, [], false⟩ := by
  simp [find_history_sequence, ite_self]

lemma countRun_zero_timeout {α : Type} (count_pred : Nat → Bool)
    (search_pred : Option (α → Bool)) (items : List α)
    (batches : List (List α)) :
    countRun count_pred search_pred items 0 batches =
      ((match search_pred with | none => items | some p => items.filter p),
        0, [], false) := by
  simp [countRun, ite_self]

lemma countScanBatch_done {α : Type} (sp : α → Bool) (cp : Nat → Bool) :
    ∀ (b : List α) (acc : List α),
      (∃ k, 1 ≤ k ∧ k ≤ (b.filter sp).length ∧ cp (acc.length + k) = true) →
      (countScanBatch sp cp acc b).2 = true := by
  intro b
  induction b with
  | nil =>
    intro acc hk
    obtain ⟨k, h1, h2, _⟩ := hk
    simp at h2
    omega
  | cons x xs ih =>
    intro acc hk
    obtain ⟨k, h1, h2, h3⟩ := hk
    have hlen : (acc ++ [x]).length = acc.length + 1 := by simp
    by_cases hx : sp x
    · by_cases hc : cp (acc.length + 1) = true
      · simp [countScanBatch, hx, hc]
      · have hfil : ((x :: xs).filter sp).length = (xs.filter sp).length + 1 := by
          simp [List.filter_cons_of_pos hx]
        have hk1 : k ≠ 1 := by
          intro hcon
          rw [hcon] at h3
          exact hc h3
        have h3b : cp ((acc ++ [x]).length + (k - 1)) = true := by
          rw [hlen]
          have heq : acc.length + 1 + (k - 1) = acc.length + k := by omega
          rw [heq]
          exact h3
        have := ih (acc ++ [x]) ⟨k - 1, by omega, by omega, h3b⟩
        simpa [countScanBatch, hx, hc] using this
    · have hfil : ((x :: xs).filter sp).length = (xs.filter sp).length := by
        simp [List.filter_cons_of_neg hx]
      have := ih acc ⟨k, h1, by omega, h3⟩
      simpa [countScanBatch, hx] using this

/-! Claim theorems. -/

/-- Claim C1: `await_telemetry` and `await_event` are written to pass the
built kind predicate as the search predicate and the selected history as
the history to scan of `find_history_item`, returning the matched record or
`None`.  The code instead passes them in the order `(history, predicate)`
against the parameter order `(search_pred, history)`, so the predicate is
used as the history: with the default `"NOW"` start the call raises an
`AttributeError` on `predicate.size()`, and with a literal index it raises
on `predicate.retrieve(start)`, instead of returning the matched record;
the last conjunct shows that the same engine call with the two arguments in
the documented order does return the matched record. -/
theorem await_swaps_find_history_item_arguments :
    await_telemetry (fun x => x == 3) none (⟨[3]⟩ : History Nat) Start.now 5 [] =
      Except.error ("AttributeError: predicate object has no attribute size") ∧
    await_telemetry (fun x => x == 3) none (⟨[3]⟩ : History Nat) (Start.idx 0) 5 [] =
      Except.error ("AttributeError: predicate object has no attribute retrieve") ∧
    await_event (fun x => x == 3) none (⟨[3]⟩ : History Nat) Start.now 5 [] =
      Except.error ("AttributeError: predicate object has no attribute size") ∧
    await_event (fun x => x == 3) none (⟨[3]⟩ : History Nat) (Start.idx 0) 5 [] =
      Except.error ("AttributeError: predicate object has no attribute retrieve") ∧
    find_history_item_dyn (PyVal.pred (fun x => x == 3))
        (PyVal.hist (⟨[3]⟩ : History Nat)) (Start.idx 0) 5 [] =
      Except.ok (some 3) :=
  ⟨rfl, rfl, rfl, rfl, rfl⟩

/-- Claim C2: every deadline-bounded search is required to cancel a pending
armed alarm on every exit path.  `find_history_sequence` and
`find_history_count` do (`signal.alarm(0)` at api.py lines 851 and 911, and
the timeout path returns only after the alarm has fired), but
`find_history_item` returns from its polling loop on success (line 799)
without `signal.alarm(0)`: the first conjunct shows a concrete
deadline-bounded item search that succeeds during polling and returns with
the armed alarm still pending, while the sibling searches on the same
input cancel theirs. -/
theorem find_history_item_leaves_alarm_pending :
    find_history_item (fun x => x == 7) (⟨[]⟩ : History Nat) Start.fromStart 5 [[7]] =
      ⟨some 7, 1, [5], true⟩ ∧
    (find_history_sequence [fun x => x == 7] (⟨[]⟩ : History Nat)
        Start.fromStart 5 [[7]]).armSeq = [5, 0] ∧
    (find_history_sequence [fun x => x == 7] (⟨[]⟩ : History Nat)
        Start.fromStart 5 [[7]]).pending = false ∧
    (find_history_count (CountArg.int 1) (⟨[]⟩ : History Nat)
        (some (fun x => x == 7)) Start.fromStart 5 [[7]]).armSeq = [5, 0] ∧
    (find_history_count (CountArg.int 1) (⟨[]⟩ : History Nat)
        (some (fun x => x == 7)) Start.fromStart 5 [[7]]).pending = false :=
  ⟨rfl, rfl, rfl, rfl, rfl⟩

/-- Claim C5: with `timeout == 0` each of the three searches performs no
polling and never arms the deadline timer: no `retrieve_new()` call is
made, no `signal.alarm` call is issued, no alarm is pending, the result is
the initial scan's result, and the poll batches are irrelevant to the
outcome. -/
theorem zero_timeout_is_immediate_mode {α : Type} (p : α → Bool)
    (preds : List (α → Bool)) (c : CountArg) (sp : Option (α → Bool))
    (h : History α) (start : Start) (batches batches2 : List (List α)) :
    find_history_item p h start 0 batches =
      ⟨(h.retrieve (resolveStart start h)).find? p, 0, [], false⟩ ∧
    find_history_item p h start 0 batches =
      find_history_item p h start 0 batches2 ∧
    (find_history_sequence preds h start 0 batches).polled = 0 ∧
    (find_history_sequence preds h start 0 batches).armSeq = [] ∧
    (find_history_sequence preds h start 0 batches).pending = false ∧
    find_history_sequence preds h start 0 batches =
      find_history_sequence preds h start 0 batches2 ∧
    (find_history_count c h sp start 0 batches).polled = 0 ∧
    (find_history_count c h sp start 0 batches).armSeq = [] ∧
    (find_history_count c h sp start 0 batches).pending = false ∧
    find_history_count c h sp start 0 batches =
      find_history_count c h sp start 0 batches2 := by
  have hitem : ∀ bs : List (List α), find_history_item p h start 0 bs =
      ⟨(h.retrieve (resolveStart start h)).find? p, 0, [], false⟩ := by
    intro bs
    cases hf : (h.retrieve (resolveStart start h)).find? p <;>
      simp [find_history_item, hf]
  have hcount : ∀ bs : List (List α), find_history_count c h sp start 0 bs =
      find_history_count c h sp start 0 [] := by
    intro bs
    cases c <;> simp [find_history_count, countRun_zero_timeout]
  refine ⟨hitem batches, (hitem batches).trans (hitem batches2).symm,
    ?_, ?_, ?_, ?_, ?_, ?_, ?_, (hcount batches).trans (hcount batches2).symm⟩
  · rw [find_history_sequence_zero_timeout]; split <;> rfl
  · rw [find_history_sequence_zero_timeout]; split <;> rfl
  · rw [find_history_sequence_zero_timeout]; split <;> rfl
  · rw [find_history_sequence_zero_timeout, find_history_sequence_zero_timeout]
  · rw [hcount batches]; cases c <;> simp [find_history_count, countRun_zero_timeout, toCountPred]
  · rw [hcount batches]; cases c <;> simp [find_history_count, countRun_zero_timeout, toCountPred]
  · rw [hcount batches]; cases c <;> simp [find_history_count, countRun_zero_timeout, toCountPred]

/-- Claim C6: `find_history_sequence` with an empty predicate list returns
an empty list (a complete result) for every history, start cursor, timeout
and poll stream, examining no record, making no poll, and touching no
timer. -/
theorem find_sequence_empty_preds {α : Type} (h : History α) (start : Start)
    (timeout : Nat) (batches : List (List α)) :
    find_history_sequence ([] : List (α → Bool)) h start timeout batches =
      ⟨[], 0, 0, [], false⟩ := rfl

/-- Claim C7: a `count` argument that is neither a predicate nor an integer
makes `find_history_count` raise the `TypeError` eagerly: no
`history.size()`, `history.retrieve(...)` or `retrieve_new()` call is made
and no timer is touched; a predicate or integer `count` never produces
this error. -/
theorem find_count_rejects_malformed_count {α : Type} (h : History α)
    (sp : Option (α → Bool)) (start : Start) (timeout : Nat)
    (batches : List (List α)) :
    find_history_count CountArg.malformed h sp start timeout batches =
      ⟨Except.error countErrMsg, 0, 0, 0, [], false⟩ ∧
    (∀ p : Nat → Bool, ∃ l,
      (find_history_count (CountArg.pred p) h sp start timeout batches).result =
        Except.ok l) ∧
    (∀ n : Nat, ∃ l,
      (find_history_count (CountArg.int n) h sp start timeout batches).result =
        Except.ok l) :=
  ⟨rfl, fun _ => ⟨_, rfl⟩, fun _ => ⟨_, rfl⟩⟩

/-- Claim C9: in each of the three searches the `"NOW"` sentinel resolves
to `history.size()` at invocation time, so the behaviour with start `"NOW"`
is exactly the behaviour with the literal index `history.size()`, and the
initial scan is the snapshot of the records at indices ≥ `size` (for
`find_history_count` every observable except the bookkeeping `size()`-call
counter agrees); a literal index `n` or a start-of-history cursor is used
as given, so those scans also see the historical records at indices ≥ `n`
(respectively all records). -/
theorem now_cursor_resolves_to_size {α : Type} (h : History α) (p : α → Bool)
    (preds : List (α → Bool)) (c : CountArg) (sp : Option (α → Bool))
    (timeout : Nat) (batches : List (List α)) (n : Nat) :
    resolveStart Start.now h = h.items.length ∧
    resolveStart (Start.idx n) h = n ∧
    resolveStart Start.fromStart h = 0 ∧
    (∀ m : Nat, h.retrieve m = h.items.drop m) ∧
    h.retrieve 0 = h.items ∧
    find_history_item p h Start.now timeout batches =
      find_history_item p h (Start.idx h.size) timeout batches ∧
    find_history_sequence preds h Start.now timeout batches =
      find_history_sequence preds h (Start.idx h.size) timeout batches ∧
    (find_history_count c h sp Start.now timeout batches).result =
      (find_history_count c h sp (Start.idx h.size) timeout batches).result ∧
    (find_history_count c h sp Start.now timeout batches).polled =
      (find_history_count c h sp (Start.idx h.size) timeout batches).polled ∧
    (find_history_count c h sp Start.now timeout batches).armSeq =
      (find_history_count c h sp (Start.idx h.size) timeout batches).armSeq ∧
    (find_history_count c h sp Start.now timeout batches).pending =
      (find_history_count c h sp (Start.idx h.size) timeout batches).pending := by
  refine ⟨rfl, rfl, rfl, fun m => rfl, rfl, rfl, rfl, ?_, ?_, ?_, ?_⟩ <;>
    cases c <;> rfl

lemma le_get_latest (st : Nat) (ev ch : List Nat) :
    st ≤ (get_latest_fsw_time st ev ch).1 := by
  simp [get_latest_fsw_time]

lemma le_step (st : Nat) (op : ApiOp) : st ≤ op.step st := by
  cases op with
  | getLatest ev ch => exact le_get_latest st ev ch
  | passive => exact Nat.le_refl st

lemma runReturns_ge :
    ∀ (ops : List ApiOp) (st : Nat), ∀ r ∈ runReturns st ops, st ≤ r := by
  intro ops
  induction ops with
  | nil => intro st r hr; simp [runReturns] at hr
  | cons op ops ih =>
    intro st r hr
    cases op with
    | getLatest ev ch =>
      simp only [runReturns, List.mem_cons] at hr
      rcases hr with hr | hr
      · rw [hr]; exact le_get_latest st ev ch
      · exact Nat.le_trans (le_get_latest st ev ch)
          (ih (get_latest_fsw_time st ev ch).1 r hr)
    | passive =>
      simp only [runReturns] at hr
      exact ih st r hr

lemma runReturns_pairwise :
    ∀ (ops : List ApiOp) (st : Nat),
      List.Pairwise (fun a b => a ≤ b) (runReturns st ops) := by
  intro ops
  induction ops with
  | nil => intro st; simp [runReturns]
  | cons op ops ih =>
    intro st
    cases op with
    | getLatest ev ch =>
      simp only [runReturns]
      exact List.Pairwise.cons
        (fun r hr => runReturns_ge ops (get_latest_fsw_time st ev ch).1 r hr)
        (ih (get_latest_fsw_time st ev ch).1)
    | passive =>
      simp only [runReturns]
      exact ih st

/-- Claim C10: `get_latest_fsw_time` sets `latest_time` to the maximum of
the last aggregate-event timestamp, the last aggregate-telemetry timestamp
and the previous `latest_time`, and returns that value; since no other
operation assigns `latest_time`, across any run of operations of one
instance the values returned by successive `get_latest_fsw_time` calls are
pairwise non-decreasing, and `latest_time` itself never decreases. -/
theorem latest_time_monotone (st : Nat) (ev ch : List Nat) (op : ApiOp)
    (ops : List ApiOp) :
    (get_latest_fsw_time st ev ch).1 =
      max (max ((ev.getLast?).getD 0) ((ch.getLast?).getD 0)) st ∧
    (get_latest_fsw_time st ev ch).2 = (get_latest_fsw_time st ev ch).1 ∧
    st ≤ op.step st ∧
    (∀ r ∈ runReturns st ops, st ≤ r) ∧
    List.Pairwise (fun a b => a ≤ b) (runReturns st ops) :=
  ⟨rfl, rfl, le_step st op, runReturns_ge ops st, runReturns_pairwise ops st⟩

lemma find_item_result_zero_timeout {α : Type} (p : α → Bool) (h : History α)
    (s : Nat) (batches : List (List α)) :
    (find_history_item p h (Start.idx s) 0 batches).result =
      (h.items.drop s).find? p := by
  cases hf : (h.items.drop s).find? p <;>
    simp [find_history_item, History.retrieve, resolveStart, hf]

/-- Claim C3: in immediate mode (`timeout == 0`), when exactly one record of
the history at an index `k ≥ start` satisfies the predicate,
`find_history_item` returns that record (the first record of
`history.retrieve(start)`, scanned in order, that satisfies the
predicate); when no record at an index ≥ `start` satisfies it, the search
returns `None`. -/
theorem find_item_immediate_correct {α : Type} (p : α → Bool) (h : History α)
    (s : Nat) (batches : List (List α)) :
    (∀ (k : Nat) (hk : k < h.items.length), s ≤ k → p (h.items[k]) = true →
      (∀ (j : Nat) (hj : j < h.items.length), s ≤ j → p (h.items[j]) = true → j = k) →
      (find_history_item p h (Start.idx s) 0 batches).result = some (h.items[k])) ∧
    ((∀ (j : Nat) (hj : j < h.items.length), s ≤ j → p (h.items[j]) = false) →
      (find_history_item p h (Start.idx s) 0 batches).result = none) := by
  constructor
  · intro k hk hsk hpk huniq
    rw [find_item_result_zero_timeout]
    have hks : k - s < (h.items.drop s).length := by
      rw [List.length_drop]; omega
    have hdk : (h.items.drop s)[k - s] = h.items[k] := by
      have heq : s + (k - s) = k := by omega
      rw [List.getElem_drop h.items]
      congr 1
    have hmem : h.items[k] ∈ h.items.drop s := hdk ▸ List.getElem_mem hks
    have hsome : ((h.items.drop s).find? p).isSome :=
      List.find?_isSome.2 ⟨h.items[k], hmem, hpk⟩
    obtain ⟨x, hfx⟩ := Option.isSome_iff_exists.1 hsome
    have hpx : p x = true := List.find?_some hfx
    have hxmem : x ∈ h.items.drop s := List.mem_of_find?_eq_some hfx
    obtain ⟨i, hi, hxi⟩ := List.mem_iff_getElem.1 hxmem
    have hsi : s + i < h.items.length := by
      rw [List.length_drop] at hi; omega
    have hdi : h.items[s + i] = x := by
      rw [← List.getElem_drop h.items]
      exact hxi
    have hik : s + i = k := by
      refine huniq (s + i) hsi (Nat.le_add_right s i) ?_
      rw [hdi]; exact hpx
    rw [hfx]
    congr 1
    rw [← hxi, ← hdk]
    congr 1
    omega
  · intro hnone
    rw [find_item_result_zero_timeout]
    refine List.find?_eq_none.2 ?_
    intro x hx
    obtain ⟨i, hi, hxi⟩ := List.mem_iff_getElem.1 hx
    have hsi : s + i < h.items.length := by
      rw [List.length_drop] at hi; omega
    have hdi : h.items[s + i] = x := by
      rw [← List.getElem_drop h.items]
      exact hxi
    have := hnone (s + i) hsi (Nat.le_add_right s i)
    rw [hdi] at this
    simp [this]

/-- Witness for claim C3: in the history `[1, 5, 9]` with start index 1,
the record 5 at index 1 is the unique match of `x == 5` at an index ≥ 1 and
is returned; no record at an index ≥ 1 matches `x == 7`, and that search
returns `None`. -/
theorem find_item_immediate_correct_witness :
    (find_history_item (fun x => x == 5) (⟨[1, 5, 9]⟩ : History Nat)
        (Start.idx 1) 0 []).result = some 5 ∧
    (find_history_item (fun x => x == 7) (⟨[1, 5, 9]⟩ : History Nat)
        (Start.idx 1) 0 []).result = none := by
  constructor
  · exact (find_item_immediate_correct (fun x => x == 5)
      (⟨[1, 5, 9]⟩ : History Nat) 1 []).1 1 (by decide) (by decide) (by decide)
      (by decide)
  · exact (find_item_immediate_correct (fun x => x == 7)
      (⟨[1, 5, 9]⟩ : History Nat) 1 []).2 (by decide)

/-- Claim C4: for a non-empty predicate list, `find_history_sequence` is
the strict single-pass greedy matcher `greedySeq` over the candidate
stream scanned in arrival order — the initial snapshot in immediate mode,
the snapshot followed by the polled batches otherwise.  `greedySeq` tests
each record only against the predicate currently pointed to, skips
non-matching records permanently, advances past each matched predicate
exactly once, and stops consuming records once every predicate is matched;
the accumulator never exceeds the number of predicates. -/
theorem find_sequence_is_greedy {α : Type} (preds : List (α → Bool))
    (h : History α) (start : Start) (timeout : Nat)
    (batches : List (List α)) (hne : preds ≠ []) :
    (timeout = 0 →
      (find_history_sequence preds h start timeout batches).result =
        greedySeq preds (h.retrieve (resolveStart start h))) ∧
    (timeout ≠ 0 →
      (find_history_sequence preds h start timeout batches).result =
        greedySeq preds (h.retrieve (resolveStart start h) ++ batches.flatten)) ∧
    (find_history_sequence preds h start timeout batches).result.length ≤
      preds.length := by
  have hempty : preds.isEmpty = false := by
    cases preds with
    | nil => exact absurd rfl hne
    | cons a l => rfl
  have hcur1 := (seqLoop_eq (h.retrieve (resolveStart start h)) preds []).1
  have hcur2 := (seqLoop_eq (h.retrieve (resolveStart start h)) preds []).2
  rw [List.nil_append] at hcur1
  have hzero : timeout = 0 →
      (find_history_sequence preds h start timeout batches).result =
        greedySeq preds (h.retrieve (resolveStart start h)) := by
    intro ht
    subst ht
    rw [find_history_sequence_zero_timeout]
    simp [hempty, hcur1]
  have hmain : timeout ≠ 0 →
      (find_history_sequence preds h start timeout batches).result =
        greedySeq preds (h.retrieve (resolveStart start h) ++ batches.flatten) := by
    intro ht
    rw [(greedy_append _ _ _).1]
    cases hrem : (seqLoop preds [] (h.retrieve (resolveStart start h))).2.1.isEmpty with
    | true =>
      have hnil : greedyRem preds (h.retrieve (resolveStart start h)) = [] := by
        rw [← hcur2]; exact List.isEmpty_iff.1 hrem
      rw [hnil, greedySeq_nil_preds, List.append_nil]
      simp [find_history_sequence, hempty, hrem, ht, hcur1]
    | false =>
      rw [← hcur1, ← hcur2, ← seqPollLoop_result batches _ _]
      simp [find_history_sequence, hempty, hrem, ht]
  refine ⟨hzero, hmain, ?_⟩
  by_cases ht : timeout = 0
  · rw [hzero ht]; exact greedySeq_length_le _ _
  · rw [hmain ht]; exact greedySeq_length_le _ _

/-- Witness for claim C4, the spec's own example: predicates `[P1, P2]`
with `P1 = (x == 1)` and `P2 = (1 ≤ x)`, records `[0, 1, 2]` where 0 fails
P1, 1 satisfies both and 2 satisfies P2: record 1 is matched to P1 (the
first record satisfying P1), the pointer advances, record 2 is matched to
P2; record 1 is not reused for P2 and record 0 matches nothing. -/
theorem find_sequence_is_greedy_witness :
    (find_history_sequence [fun x => x == 1, fun x => decide (1 ≤ x)]
        (⟨[0, 1, 2]⟩ : History Nat) Start.fromStart 0 []).result = [1, 2] := by
  have hthm := find_sequence_is_greedy
    [fun x => x == 1, fun x => decide (1 ≤ x)]
    (⟨[0, 1, 2]⟩ : History Nat) Start.fromStart 0 [] (by simp)
  rw [hthm.1 rfl]
  rfl

/-- Claim C8: `find_history_count` accumulates the records satisfying the
item predicate from the start cursor onward (a `None` item predicate counts
everything) and returns as soon as the count predicate holds of the
accumulator's length: if it already holds after the initial scan the call
returns at once, with no poll and no timer use; and during polling, once a
record of the current batch makes the count predicate hold, the remaining
poll stream is irrelevant to the outcome — the search does not wait out
the rest of the timeout. -/
theorem find_count_early_exit {α : Type} (cp : Nat → Bool) (sp : α → Bool)
    (h : History α) (start : Start) (timeout : Nat) :
    (∀ batches, cp ((h.retrieve (resolveStart start h)).filter sp).length = true →
      find_history_count (CountArg.pred cp) h (some sp) start timeout batches =
        ⟨Except.ok ((h.retrieve (resolveStart start h)).filter sp),
          startSizeCalls start, 1, 0, [], false⟩) ∧
    (∀ b bs bs2,
      cp ((h.retrieve (resolveStart start h)).filter sp).length = false →
      timeout ≠ 0 →
      (∃ k, 1 ≤ k ∧ k ≤ (b.filter sp).length ∧
        cp (((h.retrieve (resolveStart start h)).filter sp).length + k) = true) →
      find_history_count (CountArg.pred cp) h (some sp) start timeout (b :: bs) =
        find_history_count (CountArg.pred cp) h (some sp) start timeout (b :: bs2)) ∧
    (∀ batches,
      find_history_count (CountArg.pred cp) h none start timeout batches =
        find_history_count (CountArg.pred cp) h (some (fun _ => true)) start
          timeout batches) := by
  refine ⟨?_, ?_, ?_⟩
  · intro batches hcp
    simp [find_history_count, toCountPred, countRun, hcp]
  · intro b bs bs2 hcp ht hex
    have hdone : (countScanBatch sp cp
        ((h.retrieve (resolveStart start h)).filter sp) b).2 = true :=
      countScanBatch_done sp cp b _ hex
    simp [find_history_count, toCountPred, countRun, hcp, ht, countPoll, hdone]
  · intro batches
    simp [find_history_count, toCountPred, countRun, List.filter_true]

/-- Witness for claim C8: an at-least-2 count search over records matching
`x == 5`, with one match already in the history: the first poll batch
contains a second match, so the call returns there — dropping the two
later poll batches does not change the outcome. -/
theorem find_count_early_exit_witness :
    find_history_count (CountArg.pred (fun n => decide (2 ≤ n)))
        (⟨[5]⟩ : History Nat) (some (fun x => x == 5)) Start.fromStart 3
        [[5, 7], [5], [5]] =
      find_history_count (CountArg.pred (fun n => decide (2 ≤ n)))
        (⟨[5]⟩ : History Nat) (some (fun x => x == 5)) Start.fromStart 3
        [[5, 7]] :=
  (find_count_early_exit (fun n => decide (2 ≤ n)) (fun x => x == 5)
    (⟨[5]⟩ : History Nat) Start.fromStart 3).2.1 [5, 7] [[5], [5]] []
    (by decide) (by decide) ⟨1, by decide, by decide, by decide⟩

end GdsTestApi
